import Mathlib

/-!
Verification development for the catalog and product synchronization engine.

The definitions below are shallow embeddings of the Python source:

* `escape_quotes`, `convert_to_csv` — marketplace/wpp_products/utils.py
  (`escape_quotes`, `ProductUploadManager.convert_to_csv`);
* `extract_sku_id` — `ProductUploader.extract_sku_id`;
* `extract_sellers_ids`, `get_sellers_ids` —
  marketplace/services/vtex/generic_service.py;
* `update_app_connected_catalog_flag`, `link_catalog_to_vtex_app_if_needed` —
  `CatalogProductInsertion`;
* `start_insertion_by_seller` — `CatalogInsertionBySeller`;
* `mark_products_as_sent`, `mark_products_as_error`, `fetcherNext`,
  `process_and_upload` — `ProductUploadManager`, `ProductBatchFetcher`,
  `ProductUploader.process_and_upload`;
* `processConn`, `runPass` — marketplace/wpp_products/tasks.py
  (`sync_facebook_catalogs` and its `handle_exceptions`-decorated helpers).

Machine integers do not occur; Python strings are `String`, Python `None` is
`Option.none`, and Python truthiness of optional strings/booleans is made
explicit in `truthyStr` and in `Option.getD` defaulting.
-/

/- Character constants for the two quote characters (34 is the double quote,
39 is the single quote, 32 is the space). -/
def dquoteChar : Char := Char.ofNat 34

def squoteChar : Char := Char.ofNat 39

def spaceChar : Char := Char.ofNat 32

/-- utils.py `escape_quotes`: `text.replace(dquote, "").replace(squote, " ")`.
Removing every double quote and then mapping each single quote to a space is
exactly that composition of `str.replace` calls, character by character. -/
def escape_quotes (text : String) : String :=
  String.mk ((text.data.filter (fun c => c ≠ dquoteChar)).map
    (fun c => if c = squoteChar then spaceChar else c))

/-- The fixed CSV header of `ProductUploadManager.convert_to_csv`. -/
def csvHeader : String :=
  "id,title,description,availability,status,condition,price,link,image_link,brand,sale_price"

/-- The list `csv_lines` built by `convert_to_csv`: the header when
`include_header` is set, then one escaped line per product `data` field. -/
def csvLines (include_header : Bool) (products : List String) : List String :=
  (if include_header then [csvHeader] else []) ++ products.map escape_quotes

/-- Python `"\n".join(lines)`. -/
def joinLines : List String → String
  | [] => ""
  | [l] => l
  | l :: ls => l ++ "\n" ++ joinLines ls

/-- utils.py `ProductUploadManager.convert_to_csv` (the buffer content as a
string; the UTF-8 byte buffer wrapping is not modelled). -/
def convert_to_csv (include_header : Bool) (products : List String) : String :=
  joinLines (csvLines include_header products)

/-- Python `str.isdigit` for ASCII data: nonempty and all characters digits. -/
def pyIsDigit (s : String) : Bool :=
  !s.isEmpty && s.data.all (fun c => c.isDigit)

/-- Python `int` on a digit string: the decimal value of the digit list. -/
def pyInt (s : String) : Nat :=
  s.data.foldl (fun a c => 10 * a + (c.toNat - 48)) 0

/-- Python `str.split(sep)` for a single-character separator, character by
character: splitting the empty string gives one empty field, and every
separator occurrence opens a new field. -/
def splitChar (sep : Char) : List Char → List (List Char)
  | [] => [[]]
  | c :: rest =>
    match splitChar sep rest with
    | [] => [[c]]
    | h :: t => if c = sep then [] :: h :: t else (c :: h) :: t

/-- The part of a compound product identifier before the first hash sign
(35 is the hash character): `product_id.split("#")[0]`. -/
def skuPart (s : String) : String :=
  String.mk ((splitChar (Char.ofNat 35) s.data).headD [])

/-- utils.py `ProductUploader.extract_sku_id`: split on the hash sign, take
the part before it, return its integer value when it `isdigit`, otherwise
raise `ValueError`. -/
def extract_sku_id (product_id : String) : Except String Nat :=
  if pyIsDigit (skuPart product_id) then .ok (pyInt (skuPart product_id))
  else .error "Invalid SKU ID: not a number"

/-- A VTEX webhook payload restricted to the two fields the seller extraction
reads; each is absent (`none`) or a string value. -/
structure Webhook where
  an : Option String
  sellerChain : Option String
deriving DecidableEq

/-- Python truthiness of an optional string: present and nonempty. -/
def truthyStr (o : Option String) : Bool :=
  match o with
  | none => false
  | some s => !s.isEmpty

/-- generic_service.py `extract_sellers_ids`. -/
def extract_sellers_ids (webhook : Webhook) : Option String :=
  let seller_an := webhook.an
  let seller_chain := webhook.sellerChain
  if truthyStr seller_chain && truthyStr seller_an then seller_chain
  else if truthyStr seller_an && !truthyStr seller_chain then seller_an
  else none

/-- generic_service.py `ProductUpdateService._get_sellers_ids`: the single
extracted seller, or the full list of active sellers when extraction gives
none. -/
def get_sellers_ids (webhook : Webhook) (all_active_sellers : List String) :
    List String :=
  match extract_sellers_ids webhook with
  | some seller_id => [seller_id]
  | none => all_active_sellers

/-- The slice of a VTEX app config that the connected-catalog flag update
reads and writes: `config.get("connected_catalog", None)` is `none` when the
key is absent. -/
structure VtexAppCfg where
  connectedCatalog : Option Bool
deriving DecidableEq

/-- generic_service.py `CatalogProductInsertion._update_app_connected_catalog_flag`:
write `True` and save only when the current value `is not True`.  The boolean
result records whether a save happened. -/
def update_app_connected_catalog_flag (app : VtexAppCfg) : VtexAppCfg × Bool :=
  if app.connectedCatalog = some true then (app, false)
  else ({ app with connectedCatalog := some true }, true)

/-- The slice of a Catalog row that linking reads and writes: its optional
VTEX app foreign key. -/
structure CatalogLink where
  vtexApp : Option Nat
deriving DecidableEq

/-- generic_service.py `CatalogProductInsertion._link_catalog_to_vtex_app_if_needed`:
set the foreign key and save only when it is not already set.  The boolean
result records whether a save happened. -/
def link_catalog_to_vtex_app_if_needed (catalog : CatalogLink) (vtexApp : Nat) :
    CatalogLink × Bool :=
  match catalog.vtexApp with
  | some _ => (catalog, false)
  | none => ({ catalog with vtexApp := some vtexApp }, true)

/-- The distinct `ValueError`s raised by `CatalogInsertionBySeller`, one per
validation step, in source order. -/
inductive SellerVErr
  | sellersRequired
  | missingWppCloudUuid
  | missingCredentials
  | cloudAppNotFound
  | noLinkedCatalog
  | catalogNotFoundOnCloud
  | syncNotCompleted
  | feedRequired
  | catalogNotConnected
deriving DecidableEq

/-- The state read by `CatalogInsertionBySeller.start_insertion_by_seller`:
the request payload, the VTEX app config entries it consults, and the lookup
results it performs.  Config flags are `Option Bool` (absent key = `none`);
`config.get` defaulting is written out at each use site. -/
structure SellerCtx where
  sellers : List String
  wppCloudUuid : Option String
  credsHaveAppKey : Bool
  credsHaveAppToken : Bool
  credsHaveDomain : Bool
  wppCloudExists : Bool
  vtexCatalogFbId : Option String
  cloudCatalogIds : List String
  initialSyncCompleted : Option Bool
  useSyncV2 : Option Bool
  catalogHasFeed : Bool
  connectedCatalog : Option Bool
deriving DecidableEq

/-- generic_service.py `CatalogInsertionBySeller.start_insertion_by_seller`:
the validation chain in source order; `.ok ()` means every check passed and
the `task_insert_vtex_products_by_sellers` task was dispatched. -/
def start_insertion_by_seller (ctx : SellerCtx) : Except SellerVErr Unit :=
  if ctx.sellers.isEmpty then .error .sellersRequired
  else if !truthyStr ctx.wppCloudUuid then .error .missingWppCloudUuid
  else if !(ctx.credsHaveAppKey && ctx.credsHaveAppToken && ctx.credsHaveDomain)
    then .error .missingCredentials
  else if !ctx.wppCloudExists then .error .cloudAppNotFound
  else
    match ctx.vtexCatalogFbId with
    | none => .error .noLinkedCatalog
    | some fbId =>
      if !(ctx.cloudCatalogIds.contains fbId) then .error .catalogNotFoundOnCloud
      else if !(ctx.initialSyncCompleted.getD false) then .error .syncNotCompleted
      else if (ctx.useSyncV2.getD false) = false && !ctx.catalogHasFeed
        then .error .feedRequired
      else if ctx.connectedCatalog ≠ some true then .error .catalogNotConnected
      else .ok ()

/-- UploadProduct status enum (models.py choices pending, processing, success,
error). -/
inductive PStatus
  | pending
  | processing
  | success
  | error
deriving DecidableEq

/-- One UploadProduct row, restricted to the columns the engine reads:
primary key, `facebook_product_id`, catalog foreign key, status, and
`modified_on` used for batch ordering. -/
structure PRow where
  id : Nat
  fbProductId : String
  catalogId : Nat
  status : PStatus
  modifiedOn : Nat
deriving DecidableEq

/-- The UploadProduct table, as the list of its rows in storage order. -/
abbrev UploadDB := List PRow

/-- utils.py `ProductUploadManager.mark_products_as_sent`:
`filter(facebook_product_id__in=product_ids, status="processing").update(status="success")`. -/
def mark_products_as_sent (product_ids : List String) (db : UploadDB) : UploadDB :=
  db.map (fun r =>
    if product_ids.contains r.fbProductId && r.status == .processing then
      { r with status := .success }
    else r)

/-- utils.py `ProductUploadManager.mark_products_as_error`:
`filter(facebook_product_id__in=product_ids, status="processing").update(status="error")`. -/
def mark_products_as_error (product_ids : List String) (db : UploadDB) : UploadDB :=
  db.map (fun r =>
    if product_ids.contains r.fbProductId && r.status == .processing then
      { r with status := .error }
    else r)

/-- The ordering used by `order_by("modified_on")`. -/
def byModified (a b : PRow) : Prop := a.modifiedOn ≤ b.modifiedOn

instance : DecidableRel byModified := fun a b => Nat.decLe a.modifiedOn b.modifiedOn

/-- utils.py `ProductBatchFetcher.__next__` line
`UploadProduct.objects.filter(id__in=product_ids).update(status="processing")`:
conditioned on the id set only, with no status condition. -/
def markProcessingByIds (ids : List Nat) (db : UploadDB) : UploadDB :=
  db.map (fun r => if ids.contains r.id then { r with status := .processing } else r)

/-- The pending rows of one catalog, in storage order (the filter of
`ProductBatchFetcher.__next__` before ordering and slicing). -/
def pendingOf (catalogId : Nat) (db : UploadDB) : List PRow :=
  db.filter (fun r => r.catalogId == catalogId && r.status == .pending)

/-- Observer: the status of the row with primary key `x`, when present. -/
def statusOf (db : UploadDB) (x : Nat) : Option PStatus :=
  (db.find? (fun r => r.id == x)).map (fun r => r.status)

/-- The queryset `filter(catalog=..., status="pending").order_by("modified_on")[:batch_size]`
of `ProductBatchFetcher.__next__`. -/
def pendingSelection (catalogId batchSize : Nat) (db : UploadDB) : List PRow :=
  (List.insertionSort byModified (pendingOf catalogId db)).take batchSize

/-- The Python local `product_ids` of `ProductBatchFetcher.__next__`: the
primary keys of the selected batch. -/
def selectedIds (catalogId batchSize : Nat) (db : UploadDB) : List Nat :=
  (pendingSelection catalogId batchSize db).map (fun r => r.id)

/-- The re-fetch `UploadProduct.objects.filter(id__in=product_ids)` of
`ProductBatchFetcher.__next__`, evaluated against the updated table. -/
def fetchedRows (catalogId batchSize : Nat) (db : UploadDB) : List PRow :=
  (markProcessingByIds (selectedIds catalogId batchSize db) db).filter
    (fun r => (selectedIds catalogId batchSize db).contains r.id)

/-- utils.py `ProductBatchFetcher.__next__`: select up to `batchSize` pending
rows of the catalog oldest-modified-first; `none` models `StopIteration` when
the selection is empty; otherwise mark the selected ids processing, re-fetch
the rows by id, and return them with their `facebook_product_id` values and
the updated table. -/
def fetcherNext (catalogId batchSize : Nat) (db : UploadDB) :
    Option (List PRow × List String × UploadDB) :=
  if (pendingSelection catalogId batchSize db).isEmpty then none
  else
    some (fetchedRows catalogId batchSize db,
      (fetchedRows catalogId batchSize db).map (fun r => r.fbProductId),
      markProcessingByIds (selectedIds catalogId batchSize db) db)

/-- Iterated fetcher: the id batches emitted by repeated `__next__` calls of
one pass, with fuel bounding the number of iterations. -/
def runFetcherIds (catalogId batchSize : Nat) : Nat → UploadDB → List (List Nat)
  | 0, _ => []
  | fuel + 1, db =>
    match fetcherNext catalogId batchSize db with
    | none => []
    | some (rows, _, db2) =>
      rows.map (fun r => r.id) :: runFetcherIds catalogId batchSize fuel db2

/-- The environment event of one iteration of the upload loop body:
the fetch itself raises, or the fetch succeeds and `send_to_meta` returns
true, returns false, or an unexpected exception escapes the body after the
batch ids are bound. -/
inductive UEvent
  | fetchRaise
  | sendOk
  | sendFail
  | bodyRaise
deriving DecidableEq

/-- How an invocation of `process_and_upload` ended: the iterator was
exhausted normally; an exception was caught and the bound ids marked error;
the except handler itself hit the unbound `products_ids` local; or the
supplied event list ran out before the loop ended (a model artifact, never
reached by the theorems). -/
inductive UTerm
  | normal
  | caughtMarked
  | unboundLocal
  | eventsOut
deriving DecidableEq

/-- utils.py `ProductUploader.process_and_upload`: the loop
`for products, products_ids in self.product_manager`, driven by one event per
iteration.  `bound` is the Python local `products_ids`: `none` until the
first successful fetch binds it.  On `sendOk` the batch is marked sent, on
`sendFail` marked error, and iteration continues; on an exception escaping the
body the except handler marks the bound `products_ids` as error and the loop
terminates; when the exception is raised by the fetch before any binding, the
handler reference to `products_ids` is itself an unbound local access. -/
def process_and_upload (catalogId batchSize : Nat) :
    List UEvent → UploadDB → Option (List String) → UploadDB × UTerm
  | [], db, _ => (db, .eventsOut)
  | .fetchRaise :: _, db, bound =>
    match bound with
    | none => (db, .unboundLocal)
    | some pids => (mark_products_as_error pids db, .caughtMarked)
  | ev :: rest, db, _bound =>
    match fetcherNext catalogId batchSize db with
    | none => (db, .normal)
    | some (_, pids, db2) =>
      match ev with
      | .sendOk =>
        process_and_upload catalogId batchSize rest (mark_products_as_sent pids db2) (some pids)
      | .sendFail =>
        process_and_upload catalogId batchSize rest (mark_products_as_error pids db2) (some pids)
      | .bodyRaise => (mark_products_as_error pids db2, .caughtMarked)
      | .fetchRaise => (db, .unboundLocal)

/-- One provider connection (a `wpp-cloud` App) as read by
`sync_facebook_catalogs`: the two config identities, the locally stored
`facebook_catalog_id` values, and the flows object identifier. -/
structure Conn where
  waBusinessId : Option String
  waWabaId : Option String
  localIds : List String
  flowUuid : String
deriving DecidableEq

/-- The remote behaviour met while processing one connection: the listing
call either raises or returns the pair of catalog ids and full catalog
payloads; each detail fetch raises or returns the optional details payload;
each create, the delete, and the flows update either succeed or raise. -/
structure ConnEnv where
  listResult : Except Unit (List String × List String)
  detailsResult : String → Except Unit (Option String)
  createOk : String → Bool
  deleteOk : Bool
  flowsOk : Bool

/-- What happened to one connection during the pass: catalog ids created
locally, ids deleted locally, listings pushed to the flows consumer, and the
resulting local id set. -/
structure ConnOutcome where
  createdIds : List String
  deletedIds : List String
  pushed : List (List String)
  finalLocal : List String
deriving DecidableEq

/-- The `to_create` loop of `sync_facebook_catalogs`: for each id,
`get_catalog_details_task` re-raises on failure (its decorator passes
`continue_on_exception=False`), aborting the pass; falsy details skip the
create; `create_catalog_task` failures are caught by the decorator and the
loop continues.  Returns the ids actually created and whether the loop
aborted. -/
def createLoop (env : ConnEnv) : List String → List String → List String × Bool
  | [], acc => (acc, false)
  | cid :: rest, acc =>
    match env.detailsResult cid with
    | .error _ => (acc, true)
    | .ok none => createLoop env rest acc
    | .ok (some _) =>
      createLoop env rest (if env.createOk cid then acc ++ [cid] else acc)

/-- tasks.py `sync_facebook_catalogs`, body of the per-app loop.  When both
identities are truthy: the listing is fetched (`list_all_catalogs_task`
catches its own failures and yields two empty lists); nothing further happens
when the id listing is empty (`if all_catalogs_id:`); otherwise the full
listing is pushed to flows (`update_catalogs_on_flows_task`, failures
caught), the set differences are computed, details are fetched and creates
issued per missing id, and `delete_catalogs_task` (failures caught) removes
the ids gone remotely.  The boolean is true when a detail fetch re-raised and
the pass must abort. -/
def processConn (c : Conn) (env : ConnEnv) : ConnOutcome × Bool :=
  if truthyStr c.waBusinessId && truthyStr c.waWabaId then
    let listed := match env.listResult with
      | .error _ => ([], [])
      | .ok v => v
    let allIds := listed.1
    let allCatalogs := listed.2
    if allIds.isEmpty then (⟨[], [], [], c.localIds⟩, false)
    else
      let pushed := if env.flowsOk then [allCatalogs] else []
      let toCreate := allIds.eraseDups.filter (fun i => !(c.localIds.contains i))
      let toDelete := c.localIds.filter (fun i => !(allIds.contains i))
      let created := createLoop env toCreate []
      if created.2 then
        (⟨created.1, [], pushed, c.localIds ++ created.1⟩, true)
      else
        let deleted :=
          if toDelete.isEmpty then ([], c.localIds)
          else if env.deleteOk then
            (toDelete, c.localIds.filter (fun i => allIds.contains i))
          else ([], c.localIds)
        (⟨created.1, deleted.1, pushed, deleted.2 ++ created.1⟩, false)
  else (⟨[], [], [], c.localIds⟩, false)

/-- tasks.py `sync_facebook_catalogs`, the `for app in apptype.apps` loop
under the redis lock: connections are processed in order; a re-raised detail
fetch failure propagates out of the loop, leaving the remaining connections
unprocessed.  Returns the outcomes of the processed prefix and whether the
pass aborted. -/
def runPass : List (Conn × ConnEnv) → List ConnOutcome × Bool
  | [] => ([], false)
  | (c, env) :: rest =>
    let r := processConn c env
    if r.2 then ([r.1], true)
    else
      let rs := runPass rest
      (r.1 :: rs.1, rs.2)

/-! ### Helper lemmas for the feed encoder -/

theorem escape_quotes_no_quote {c : Char} (t : String)
    (h : c ∈ (escape_quotes t).data) : c ≠ dquoteChar ∧ c ≠ squoteChar := by
  rcases List.mem_map.mp h with ⟨a, ha, rfl⟩
  rcases List.mem_filter.mp ha with ⟨_, hnd⟩
  have hnd2 : a ≠ dquoteChar := by simpa using hnd
  by_cases hs : a = squoteChar
  · rw [if_pos hs]
    exact ⟨by decide, by decide⟩
  · rw [if_neg hs]
    exact ⟨hnd2, hs⟩

theorem csvHeader_no_quote :
    ∀ c ∈ csvHeader.data, c ≠ dquoteChar ∧ c ≠ squoteChar := by decide

theorem mem_joinLines_data {c : Char} :
    ∀ (ls : List String), c ∈ (joinLines ls).data →
      c = Char.ofNat 10 ∨ ∃ s ∈ ls, c ∈ s.data
  | [], h => by simp [joinLines] at h
  | [l], h => Or.inr ⟨l, by simp, h⟩
  | l :: l2 :: ls, h => by
    have hd : (joinLines (l :: l2 :: ls)).data =
        l.data ++ ("\n").data ++ (joinLines (l2 :: ls)).data := by
      show (l ++ "\n" ++ joinLines (l2 :: ls)).data = _
      rw [String.data_append, String.data_append]
    rw [hd] at h
    rcases List.mem_append.mp h with h1 | h2
    · rcases List.mem_append.mp h1 with ha | hb
      · exact Or.inr ⟨l, by simp, ha⟩
      · left
        have : ("\n").data = [Char.ofNat 10] := by decide
        rw [this] at hb
        simpa using hb
    · rcases mem_joinLines_data (l2 :: ls) h2 with hnl | ⟨s, hs, hcs⟩
      · exact Or.inl hnl
      · exact Or.inr ⟨s, List.mem_cons_of_mem _ hs, hcs⟩

/-- C7: for every input batch, the feed encoder output contains no double
quote and no single quote regardless of the product record content, and the
fixed header line is emitted exactly once, at the head of the emitted line
list, with every further line an escaped product record (so the header is
never re-emitted mid-file; with `include_header` off it is not emitted at
all). -/
theorem C7_feed_encoder :
    ∀ (products : List String),
      (∀ c ∈ (convert_to_csv true products).data, c ≠ dquoteChar ∧ c ≠ squoteChar) ∧
      (∀ c ∈ (convert_to_csv false products).data, c ≠ dquoteChar ∧ c ≠ squoteChar) ∧
      csvLines true products = csvHeader :: products.map escape_quotes ∧
      csvLines false products = products.map escape_quotes := by
  intro products
  have hq : ∀ (b : Bool) (c : Char), c ∈ (convert_to_csv b products).data →
      c ≠ dquoteChar ∧ c ≠ squoteChar := by
    intro b c hc
    rcases mem_joinLines_data _ hc with hnl | ⟨s, hs, hcs⟩
    · subst hnl
      constructor <;> decide
    · have hs2 : s = csvHeader ∨ ∃ p ∈ products, escape_quotes p = s := by
        rcases b with _ | _
        · simp [csvLines] at hs
          rcases hs with ⟨p, hp, rfl⟩
          exact Or.inr ⟨p, hp, rfl⟩
        · simp [csvLines] at hs
          rcases hs with rfl | ⟨p, hp, rfl⟩
          · exact Or.inl rfl
          · exact Or.inr ⟨p, hp, rfl⟩
      rcases hs2 with rfl | ⟨p, _, rfl⟩
      · exact csvHeader_no_quote c hcs
      · exact escape_quotes_no_quote p hcs
  exact ⟨hq true, hq false, rfl, rfl⟩

/-- Witness for C7 at a concrete batch. -/
theorem C7_feed_encoder_witness :
    csvLines true ["a,10,in stock"] = [csvHeader, "a,10,in stock"] := by
  have h := (C7_feed_encoder ["a,10,in stock"]).2.2.1
  rw [h]
  decide

/-- C9: SKU extraction returns the integer value of the part before the hash
sign when that part is a nonempty digit string (so `extract_sku_id` of
`55#7` is 55), and raises a `ValueError` whenever the SKU portion is empty
or contains a non-digit character (so `abc#7` is a hard data error). -/
theorem C9_sku_extraction :
    extract_sku_id "55#7" = .ok 55 ∧
    extract_sku_id "abc#7" = .error "Invalid SKU ID: not a number" ∧
    ∀ pid : String,
      (skuPart pid ≠ "" →
        (∀ ch ∈ (skuPart pid).data, ch.isDigit = true) →
        extract_sku_id pid = .ok (pyInt (skuPart pid))) ∧
      ((skuPart pid = "" ∨ ∃ ch ∈ (skuPart pid).data, ch.isDigit = false) →
        ∃ msg, extract_sku_id pid = .error msg) := by
  refine ⟨rfl, rfl, ?_⟩
  intro pid
  constructor
  · intro hne hall
    have hdig : pyIsDigit (skuPart pid) = true := by
      unfold pyIsDigit
      rw [Bool.and_eq_true, Bool.not_eq_true', List.all_eq_true]
      refine ⟨?_, fun x hx => hall x hx⟩
      by_contra hemp
      exact hne ((String.isEmpty_iff _).mp (by simpa using hemp))
    unfold extract_sku_id
    rw [if_pos hdig]
  · intro h
    have hdig : pyIsDigit (skuPart pid) = false := by
      rcases h with hzero | ⟨ch, hch, hnd⟩
      · rw [hzero]
        decide
      · simp [pyIsDigit, List.all_eq_true]
        intro _
        exact ⟨ch, hch, by simp [hnd]⟩
    refine ⟨"Invalid SKU ID: not a number", ?_⟩
    unfold extract_sku_id
    rw [if_neg (by simp [hdig])]

/-- Witness for C9 at the two example identifiers of the spec. -/
theorem C9_sku_extraction_witness :
    extract_sku_id "55#7" = .ok (pyInt (skuPart "55#7")) ∧
    ∃ msg, extract_sku_id "abc#7" = .error msg :=
  ⟨(C9_sku_extraction.2.2 "55#7").1 (by decide) (by decide),
   (C9_sku_extraction.2.2 "abc#7").2 (Or.inr ⟨Char.ofNat 97, by decide, by decide⟩)⟩

/-- C10: seller extraction gives `SellerChain` precedence when both fields
are truthy, returns `An` when only `An` is truthy, and in every other case
(including `SellerChain` present without `An`) returns none, which makes
`_get_sellers_ids` fall back to the full active-seller list. -/
theorem C10_seller_extraction :
    ∀ (w : Webhook) (act : List String),
      (truthyStr w.an = true → truthyStr w.sellerChain = true →
        extract_sellers_ids w = w.sellerChain) ∧
      (truthyStr w.an = true → truthyStr w.sellerChain = false →
        extract_sellers_ids w = w.an) ∧
      (truthyStr w.an = false → extract_sellers_ids w = none) ∧
      (truthyStr w.an = false → get_sellers_ids w act = act) := by
  intro w act
  have h3 : truthyStr w.an = false → extract_sellers_ids w = none := by
    intro h
    simp [extract_sellers_ids, h]
  refine ⟨?_, ?_, h3, ?_⟩
  · intro h1 h2
    simp [extract_sellers_ids, h1, h2]
  · intro h1 h2
    simp [extract_sellers_ids, h1, h2]
  · intro h
    simp [get_sellers_ids, h3 h]

/-- Witness for C10: SellerChain wins when both are truthy, and a payload
with SellerChain but no An falls back to the active-seller list. -/
theorem C10_seller_extraction_witness :
    extract_sellers_ids ⟨some "sellerA", some "chainB"⟩ = some "chainB" ∧
    get_sellers_ids ⟨none, some "chainB"⟩ ["s1", "s2"] = ["s1", "s2"] :=
  ⟨(C10_seller_extraction ⟨some "sellerA", some "chainB"⟩ []).1 (by decide) (by decide),
   (C10_seller_extraction ⟨none, some "chainB"⟩ ["s1", "s2"]).2.2.2 (by decide)⟩

/-- C8: first-insertion admission side effects are idempotent: the
connected-catalog flag is written only when not already true, the catalog is
linked only when not already linked, and re-running either step on a state
where the target already holds changes nothing and reports no write. -/
theorem C8_idempotent_side_effects :
    ∀ (app : VtexAppCfg) (cat : CatalogLink) (vid : Nat),
      ((update_app_connected_catalog_flag app).2 = true ↔
        app.connectedCatalog ≠ some true) ∧
      (app.connectedCatalog = some true →
        update_app_connected_catalog_flag app = (app, false)) ∧
      (update_app_connected_catalog_flag (update_app_connected_catalog_flag app).1 =
        ((update_app_connected_catalog_flag app).1, false)) ∧
      ((link_catalog_to_vtex_app_if_needed cat vid).2 = true ↔ cat.vtexApp = none) ∧
      (cat.vtexApp ≠ none → link_catalog_to_vtex_app_if_needed cat vid = (cat, false)) ∧
      (link_catalog_to_vtex_app_if_needed
          (link_catalog_to_vtex_app_if_needed cat vid).1 vid =
        ((link_catalog_to_vtex_app_if_needed cat vid).1, false)) := by
  intro app cat vid
  by_cases h : app.connectedCatalog = some true <;>
    rcases hc : cat.vtexApp with _ | v <;>
      simp [update_app_connected_catalog_flag, link_catalog_to_vtex_app_if_needed, h, hc]

/-- Witness for C8: re-running the flag update on an already-connected app is
a no-op. -/
theorem C8_idempotent_side_effects_witness :
    update_app_connected_catalog_flag ⟨some true⟩ = (⟨some true⟩, false) :=
  (C8_idempotent_side_effects ⟨some true⟩ ⟨none⟩ 0).2.1 rfl

/-- C6: by-seller insertion admission, given that the earlier lookups
(sellers payload, wpp-cloud uuid, credentials, cloud app, linked catalog)
pass, rejects with a validation error whenever `initial_sync_completed` is
effectively false or `connected_catalog` is not true; when both hold it
dispatches the job if `use_sync_v2` is set, and otherwise dispatches exactly
when at least one feed exists for the catalog. -/
theorem C6_by_seller_admission :
    ∀ (ctx : SellerCtx) (fbId : String),
      ctx.sellers.isEmpty = false →
      truthyStr ctx.wppCloudUuid = true →
      ctx.credsHaveAppKey = true →
      ctx.credsHaveAppToken = true →
      ctx.credsHaveDomain = true →
      ctx.wppCloudExists = true →
      ctx.vtexCatalogFbId = some fbId →
      ctx.cloudCatalogIds.contains fbId = true →
      ((ctx.initialSyncCompleted.getD false = false →
          start_insertion_by_seller ctx = .error .syncNotCompleted) ∧
       (ctx.connectedCatalog ≠ some true →
          start_insertion_by_seller ctx ≠ .ok ()) ∧
       (ctx.initialSyncCompleted.getD false = true →
        ctx.connectedCatalog = some true →
          ((ctx.useSyncV2.getD false = true →
             start_insertion_by_seller ctx = .ok ()) ∧
           (ctx.useSyncV2.getD false = false →
             (start_insertion_by_seller ctx = .ok () ↔ ctx.catalogHasFeed = true))))) := by
  intro ctx fbId h1 h2 h3 h4 h5 h6 h7 h8
  have h8m : fbId ∈ ctx.cloudCatalogIds := by simpa using h8
  refine ⟨?_, ?_, ?_⟩
  · intro hsync
    simp [start_insertion_by_seller, h1, h2, h3, h4, h5, h6, h7, h8, h8m, hsync]
  · intro hconn
    cases hic : (ctx.initialSyncCompleted.getD false) <;>
      cases hsv : (ctx.useSyncV2.getD false) <;>
        cases hcf : ctx.catalogHasFeed <;>
          simp [start_insertion_by_seller, h1, h2, h3, h4, h5, h6, h7, h8, h8m,
            hic, hsv, hcf, hconn]
  · intro hsync hconn
    constructor
    · intro hsv
      simp [start_insertion_by_seller, h1, h2, h3, h4, h5, h6, h7, h8, h8m,
        hsync, hconn, hsv]
    · intro hsv
      cases hcf : ctx.catalogHasFeed <;>
        simp [start_insertion_by_seller, h1, h2, h3, h4, h5, h6, h7, h8, h8m,
          hsync, hconn, hsv, hcf]

/-- Witness for C6: a batch-mode context with no feed is admitted. -/
theorem C6_by_seller_admission_witness :
    start_insertion_by_seller
      ⟨["s1"], some "uuid", true, true, true, true, some "cat", ["cat"],
        some true, some true, false, some true⟩ = .ok () :=
  ((C6_by_seller_admission
      ⟨["s1"], some "uuid", true, true, true, true, some "cat", ["cat"],
        some true, some true, false, some true⟩ "cat"
      (by decide) (by decide) rfl rfl rfl rfl rfl (by decide)).2.2
    rfl rfl).1 rfl

/-! ### Helper lemmas for the reconciliation pass -/

theorem createLoop_no_abort (env : ConnEnv)
    (hd : ∀ cid, env.detailsResult cid ≠ .error ()) :
    ∀ (ids acc : List String), (createLoop env ids acc).2 = false := by
  intro ids
  induction ids with
  | nil => intro acc; rfl
  | cons cid rest ih =>
    intro acc
    unfold createLoop
    cases hres : env.detailsResult cid with
    | error u =>
      cases u
      exact absurd hres (hd cid)
    | ok d =>
      cases d with
      | none => exact ih acc
      | some _ => exact ih _

theorem processConn_no_abort (c : Conn) (env : ConnEnv)
    (hd : ∀ cid, env.detailsResult cid ≠ .error ()) :
    (processConn c env).2 = false := by
  unfold processConn
  by_cases hids : (truthyStr c.waBusinessId && truthyStr c.waWabaId) = true
  · rw [if_pos hids]
    cases hlist : env.listResult with
    | error u =>
      simp [hlist]
    | ok v =>
      simp only [hlist]
      by_cases hemp : v.1.isEmpty = true
      · simp [hemp]
      · simp only [Bool.not_eq_true] at hemp
        simp only [hemp, Bool.false_eq_true, if_false]
        rw [createLoop_no_abort env hd]
        simp
  · rw [if_neg hids]

/-- C1 counterexample: a catalog-details fetch failure on the first
connection is re-raised (its decorator passes `continue_on_exception=False`)
and aborts the whole pass, so the second connection is never processed, even
though processing it alone would have created its missing catalog.  This
refutes the claim that every per-connection failure is caught and the pass
continues. -/
theorem C1_details_failure_aborts_pass :
    runPass
      [(⟨some "biz1", some "waba1", [], "f1"⟩,
        ⟨.ok (["101"], ["catalog101"]), fun _ => .error (), fun _ => true, true, true⟩),
       (⟨some "biz2", some "waba2", [], "f2"⟩,
        ⟨.ok (["202"], ["catalog202"]), fun _ => .ok (some "d"), fun _ => true, true, true⟩)]
      = ([⟨[], [], [["catalog101"]], []⟩], true) ∧
    runPass
      [(⟨some "biz2", some "waba2", [], "f2"⟩,
        ⟨.ok (["202"], ["catalog202"]), fun _ => .ok (some "d"), fun _ => true, true, true⟩)]
      = ([⟨["202"], [], [["catalog202"]], ["202"]⟩], false) :=
  ⟨rfl, rfl⟩

/-- C1 amended: failures of the listing fetch, the flows push, catalog
creation and catalog deletion are caught and the pass continues over the
remaining connections (the amended theorem places no assumption on those
outcomes); but only when no catalog-details fetch fails does the pass
process every connection without aborting. -/
theorem C1_amended_noncatalog_failures_do_not_abort :
    ∀ (l : List (Conn × ConnEnv)),
      (∀ p ∈ l, ∀ cid, p.2.detailsResult cid ≠ .error ()) →
      (runPass l).2 = false ∧ (runPass l).1.length = l.length := by
  intro l hd
  induction l with
  | nil => exact ⟨rfl, rfl⟩
  | cons p rest ih =>
    obtain ⟨c, env⟩ := p
    have hp : (processConn c env).2 = false :=
      processConn_no_abort c env (fun cid => hd (c, env) (by simp) cid)
    have hrest := ih (fun q hq cid => hd q (by simp [hq]) cid)
    unfold runPass
    simp [hp, hrest.1, hrest.2]

/-- Witness for C1 amended: a pass over one connection whose flows push,
create and delete would all fail still completes without aborting. -/
theorem C1_amended_witness :
    (runPass
      [(⟨some "biz", some "waba", ["9"], "f"⟩,
        ⟨.ok (["5"], ["p5"]), fun _ => .ok none, fun _ => false, false, false⟩)]).2
      = false :=
  (C1_amended_noncatalog_failures_do_not_abort
    [(⟨some "biz", some "waba", ["9"], "f"⟩,
      ⟨.ok (["5"], ["p5"]), fun _ => .ok none, fun _ => false, false, false⟩)]
    (fun p hp cid => by
      have hpe : p = (⟨some "biz", some "waba", ["9"], "f"⟩,
          ⟨.ok (["5"], ["p5"]), fun _ => .ok none, fun _ => false, false, false⟩) := by
        simpa using hp
      subst hpe
      simp)).1

/-- C2 counterexample: a connection with both identities configured whose
remote listing is empty pushes nothing to the flows consumer (and processes
no diff: its stale local catalog also survives), refuting the claim that the
full listing is pushed on every run including the empty-listing case. -/
theorem C2_empty_listing_not_pushed :
    (processConn ⟨some "biz", some "waba", ["55"], "f"⟩
      ⟨.ok ([], []), fun _ => .ok none, fun _ => true, true, true⟩).1.pushed = [] ∧
    (processConn ⟨some "biz", some "waba", ["55"], "f"⟩
      ⟨.ok ([], []), fun _ => .ok none, fun _ => true, true, true⟩).1.finalLocal = ["55"] :=
  ⟨rfl, rfl⟩

/-- C2 amended: for a connection with both identities configured and a
working flows consumer, the full remote listing is pushed exactly when the
remote id listing is non-empty — independently of whether any create/delete
diff exists — and nothing is pushed when the listing is empty. -/
theorem C2_amended_push_iff_nonempty_listing :
    ∀ (c : Conn) (env : ConnEnv) (ids cats : List String),
      truthyStr c.waBusinessId = true →
      truthyStr c.waWabaId = true →
      env.listResult = .ok (ids, cats) →
      env.flowsOk = true →
      (processConn c env).1.pushed = if ids.isEmpty then [] else [cats] := by
  intro c env ids cats hb hw hl hf
  unfold processConn
  rw [hb, hw]
  simp only [hl, Bool.and_self, if_true]
  by_cases hemp : ids.isEmpty = true
  · simp [hemp]
  · simp only [Bool.not_eq_true] at hemp
    simp only [hemp, Bool.false_eq_true, if_false]
    split <;> simp [hf]

/-- Witness for C2 amended: a connection whose remote listing equals its
local set (no diff at all) still pushes the full listing. -/
theorem C2_amended_witness :
    (processConn ⟨some "biz", some "waba", ["101"], "f"⟩
      ⟨.ok (["101"], ["catalogA"]), fun _ => .ok none, fun _ => true, true, true⟩).1.pushed
      = [["catalogA"]] := by
  have h := C2_amended_push_iff_nonempty_listing
    ⟨some "biz", some "waba", ["101"], "f"⟩
    ⟨.ok (["101"], ["catalogA"]), fun _ => .ok none, fun _ => true, true, true⟩
    ["101"] ["catalogA"] (by decide) (by decide) rfl rfl
  simpa using h

/-- C3 counterexample: the pending-to-processing bulk update of the batch
fetcher (`filter(id__in=product_ids).update(status="processing")`) carries no
prior-status condition: applied to a row in the id set whose status is error,
it transitions that row anyway, refuting the claim that every engine status
transition is conditioned on the expected prior status. -/
theorem C3_processing_update_ignores_prior_status :
    markProcessingByIds [1] [⟨1, "p1", 7, .error, 0⟩]
      = [⟨1, "p1", 7, .processing, 0⟩] ∧
    PStatus.error ≠ PStatus.pending :=
  ⟨rfl, by decide⟩

/-- C3 amended: the success and error transitions are bulk updates
conditioned on both the explicit id set and the expected prior status
`processing` (a row failing either condition is untouched); the
pending-to-processing transition in the batch fetcher is scoped by the
explicit id set only — a row outside the id set is untouched, but a row in
the id set is set to processing regardless of its prior status. -/
theorem C3_amended_conditioned_updates :
    ∀ (pids : List String) (ids : List Nat) (db : UploadDB) (i : Nat)
      (h : i < db.length),
      ((db[i].status ≠ .processing ∨ pids.contains db[i].fbProductId = false) →
        (mark_products_as_sent pids db)[i]? = some db[i] ∧
        (mark_products_as_error pids db)[i]? = some db[i]) ∧
      (ids.contains db[i].id = false →
        (markProcessingByIds ids db)[i]? = some db[i]) ∧
      (ids.contains db[i].id = true →
        (markProcessingByIds ids db)[i]? = some { db[i] with status := .processing }) := by
  intro pids ids db i h
  have hfalse : (db[i].status ≠ .processing ∨ pids.contains db[i].fbProductId = false) →
      (pids.contains db[i].fbProductId && db[i].status == .processing) = false := by
    intro hcond
    rcases hcond with hst | hc
    · have hb : (db[i].status == PStatus.processing) = false := beq_eq_false_iff_ne.mpr hst
      rw [hb, Bool.and_false]
    · rw [hc, Bool.false_and]
  refine ⟨?_, ?_, ?_⟩
  · intro hcond
    constructor
    · unfold mark_products_as_sent
      rw [List.getElem?_map, List.getElem?_eq_getElem h]
      simp only [Option.map_some']
      rw [hfalse hcond]
      simp only [Bool.false_eq_true, if_false]
    · unfold mark_products_as_error
      rw [List.getElem?_map, List.getElem?_eq_getElem h]
      simp only [Option.map_some']
      rw [hfalse hcond]
      simp only [Bool.false_eq_true, if_false]
  · intro hid
    unfold markProcessingByIds
    rw [List.getElem?_map, List.getElem?_eq_getElem h]
    simp only [Option.map_some']
    rw [hid]
    simp only [Bool.false_eq_true, if_false]
  · intro hid
    unfold markProcessingByIds
    rw [List.getElem?_map, List.getElem?_eq_getElem h]
    simp only [Option.map_some']
    rw [hid, if_pos rfl]

/-- Witness for C3 amended: a success row named in the id set is not touched
by the error transition, and a row outside the id set is not touched by the
processing transition. -/
theorem C3_amended_witness :
    (mark_products_as_sent ["p1"] [⟨1, "p1", 7, .success, 0⟩])[0]?
      = some ⟨1, "p1", 7, .success, 0⟩ ∧
    (markProcessingByIds [2] [⟨1, "p1", 7, .pending, 0⟩])[0]?
      = some ⟨1, "p1", 7, .pending, 0⟩ :=
  ⟨((C3_amended_conditioned_updates ["p1"] [] [⟨1, "p1", 7, .success, 0⟩] 0
      (by decide)).1 (Or.inl (by decide))).1,
   (C3_amended_conditioned_updates [] [2] [⟨1, "p1", 7, .pending, 0⟩] 0
      (by decide)).2.1 (by decide)⟩

/-! ### Helper lemmas for the batch fetcher -/

instance : IsTotal PRow byModified :=
  ⟨fun a b => Nat.le_total a.modifiedOn b.modifiedOn⟩

instance : IsTrans PRow byModified :=
  ⟨fun _ _ _ hab hbc => Nat.le_trans hab hbc⟩

theorem mem_pendingOf {r : PRow} {cid : Nat} {db : UploadDB} :
    r ∈ pendingOf cid db ↔ r ∈ db ∧ r.catalogId = cid ∧ r.status = .pending := by
  unfold pendingOf
  rw [List.mem_filter]
  simp [Bool.and_eq_true, beq_iff_eq]

theorem pendingSelection_subset {r : PRow} {cid n : Nat} {db : UploadDB}
    (h : r ∈ pendingSelection cid n db) : r ∈ pendingOf cid db :=
  (List.perm_insertionSort byModified (pendingOf cid db)).subset
    (List.take_subset _ _ h)

theorem pendingSelection_sorted (cid n : Nat) (db : UploadDB) :
    List.Sorted byModified (pendingSelection cid n db) :=
  List.Pairwise.sublist (List.take_sublist _ _)
    (List.sorted_insertionSort byModified (pendingOf cid db))

theorem pendingSelection_length (cid n : Nat) (db : UploadDB) :
    (pendingSelection cid n db).length = min n (pendingOf cid db).length := by
  unfold pendingSelection
  rw [List.length_take, (List.perm_insertionSort byModified _).length_eq]

theorem pendingSelection_oldest_first {cid n : Nat} {db : UploadDB} :
    ∀ r ∈ pendingOf cid db, r ∉ pendingSelection cid n db →
      ∀ s ∈ pendingSelection cid n db, s.modifiedOn ≤ r.modifiedOn := by
  intro r hr hnot s hs
  have hrL : r ∈ List.insertionSort byModified (pendingOf cid db) :=
    (List.perm_insertionSort byModified (pendingOf cid db)).symm.subset hr
  have hsplit := List.take_append_drop n (List.insertionSort byModified (pendingOf cid db))
  have hrdrop : r ∈ List.drop n (List.insertionSort byModified (pendingOf cid db)) := by
    rw [← hsplit] at hrL
    rcases List.mem_append.mp hrL with h1 | h2
    · exact absurd h1 hnot
    · exact h2
  have hpair := List.sorted_insertionSort byModified (pendingOf cid db)
  rw [← hsplit] at hpair
  exact (List.pairwise_append.mp hpair).2.2 s hs r hrdrop

theorem getElem?_markProcessing (ids : List Nat) (db : UploadDB) (i : Nat) :
    (markProcessingByIds ids db)[i]? =
      (db[i]?).map
        (fun r => if ids.contains r.id then { r with status := .processing } else r) := by
  unfold markProcessingByIds
  rw [List.getElem?_map]

theorem map_id_markProcessing (ids : List Nat) (db : UploadDB) :
    (markProcessingByIds ids db).map (fun r => r.id) = db.map (fun r => r.id) := by
  unfold markProcessingByIds
  rw [List.map_map]
  apply List.map_congr_left
  intro a _
  by_cases h : a.id ∈ ids <;> simp [h, Function.comp]

theorem find?_eq_of_nodup {db : UploadDB}
    (hnd : (db.map (fun r => r.id)).Nodup) {r : PRow} (hr : r ∈ db) :
    db.find? (fun q => q.id == r.id) = some r := by
  induction db with
  | nil => cases hr
  | cons a t ih =>
    rw [List.map_cons, List.nodup_cons] at hnd
    rcases List.mem_cons.mp hr with rfl | hrt
    · rw [List.find?_cons_of_pos _ (by simp)]
    · have hne : (a.id == r.id) = false := by
        apply beq_eq_false_iff_ne.mpr
        intro he
        exact hnd.1 (he ▸ List.mem_map_of_mem (fun q => q.id) hrt)
      rw [List.find?_cons_of_neg _ (by simp [hne])]
      exact ih hnd.2 hrt

theorem statusOf_markProcessing (ids : List Nat) (db : UploadDB) (x : Nat) :
    statusOf (markProcessingByIds ids db) x =
      (db.find? (fun r => r.id == x)).map
        (fun r => if ids.contains x then PStatus.processing else r.status) := by
  unfold statusOf markProcessingByIds
  rw [List.find?_map]
  have hpf : ((fun q : PRow => q.id == x) ∘
      (fun r : PRow => if ids.contains r.id then { r with status := .processing } else r))
      = (fun r : PRow => r.id == x) := by
    funext r
    by_cases h : r.id ∈ ids <;> simp [h, Function.comp]
  rw [hpf]
  cases hf : db.find? (fun r : PRow => r.id == x) with
  | none => simp
  | some r =>
    have hx : r.id = x := by simpa using List.find?_some hf
    subst hx
    simp only [Option.map_some']
    by_cases hm : r.id ∈ ids <;> simp [hm]

theorem fetcherNext_eq_none_iff {cid n : Nat} {db : UploadDB} (hn : 0 < n) :
    fetcherNext cid n db = none ↔ pendingOf cid db = [] := by
  unfold fetcherNext
  by_cases hemp : (pendingSelection cid n db).isEmpty = true
  · rw [if_pos hemp]
    simp only [true_iff]
    have hsel : pendingSelection cid n db = [] := List.isEmpty_iff.mp hemp
    unfold pendingSelection at hsel
    rcases List.take_eq_nil_iff.mp hsel with h0 | hsort
    · omega
    · have hperm := List.perm_insertionSort byModified (pendingOf cid db)
      rw [hsort] at hperm
      exact hperm.symm.eq_nil
  · rw [if_neg hemp]
    constructor
    · intro h
      cases h
    · intro h
      unfold pendingSelection at hemp
      rw [h] at hemp
      simp [List.insertionSort] at hemp

theorem fetcherNext_eq_some_inv {cid n : Nat} {db : UploadDB}
    {rows : List PRow} {pids : List String} {db2 : UploadDB}
    (h : fetcherNext cid n db = some (rows, pids, db2)) :
    (pendingSelection cid n db).isEmpty = false ∧
    db2 = markProcessingByIds (selectedIds cid n db) db ∧
    rows = fetchedRows cid n db ∧
    pids = rows.map (fun r => r.fbProductId) := by
  unfold fetcherNext at h
  by_cases hemp : (pendingSelection cid n db).isEmpty = true
  · rw [if_pos hemp] at h
    cases h
  · rw [if_neg hemp] at h
    simp only [Option.some.injEq, Prod.mk.injEq] at h
    obtain ⟨h1, h2, h3⟩ := h
    subst h1
    subst h2
    subst h3
    exact ⟨by simpa using hemp, rfl, rfl, rfl⟩

theorem selectedIds_nodup {cid n : Nat} {db : UploadDB}
    (hnd : (db.map (fun r => r.id)).Nodup) : (selectedIds cid n db).Nodup := by
  unfold selectedIds pendingSelection
  have h1 : List.Sublist
      (((List.insertionSort byModified (pendingOf cid db)).take n).map (fun r => r.id))
      ((List.insertionSort byModified (pendingOf cid db)).map (fun r => r.id)) :=
    List.Sublist.map _ (List.take_sublist _ _)
  have h2 : ((List.insertionSort byModified (pendingOf cid db)).map (fun r => r.id)).Perm
      ((pendingOf cid db).map (fun r => r.id)) :=
    (List.perm_insertionSort byModified _).map _
  have h3 : ((pendingOf cid db).map (fun r => r.id)).Nodup := by
    unfold pendingOf
    exact List.Nodup.sublist (List.Sublist.map _ (List.filter_sublist _)) hnd
  exact List.Nodup.sublist h1 (h2.nodup_iff.mpr h3)

theorem mem_selectedIds_mem_db {cid n x : Nat} {db : UploadDB}
    (hx : x ∈ selectedIds cid n db) : x ∈ db.map (fun r => r.id) := by
  unfold selectedIds at hx
  rcases List.mem_map.mp hx with ⟨r, hr, rfl⟩
  exact List.mem_map_of_mem _ ((mem_pendingOf.mp (pendingSelection_subset hr)).1)

theorem fetchedRows_map_id_nodup {cid n : Nat} {db : UploadDB}
    (hnd : (db.map (fun r => r.id)).Nodup) :
    ((fetchedRows cid n db).map (fun r => r.id)).Nodup := by
  have h1 : List.Sublist ((fetchedRows cid n db).map (fun r => r.id))
      ((markProcessingByIds (selectedIds cid n db) db).map (fun r => r.id)) := by
    unfold fetchedRows
    exact List.Sublist.map _ (List.filter_sublist _)
  rw [map_id_markProcessing] at h1
  exact List.Nodup.sublist h1 hnd

theorem fetchedRows_map_id_perm {cid n : Nat} {db : UploadDB}
    (hnd : (db.map (fun r => r.id)).Nodup) :
    ((fetchedRows cid n db).map (fun r => r.id)).Perm (selectedIds cid n db) := by
  apply (List.perm_ext_iff_of_nodup (fetchedRows_map_id_nodup hnd) (selectedIds_nodup hnd)).mpr
  intro a
  constructor
  · intro ha
    rcases List.mem_map.mp ha with ⟨r, hr, rfl⟩
    unfold fetchedRows at hr
    rcases List.mem_filter.mp hr with ⟨_, hcont⟩
    simpa using hcont
  · intro ha
    have hdb : a ∈ db.map (fun r => r.id) := mem_selectedIds_mem_db ha
    rw [← map_id_markProcessing (selectedIds cid n db) db] at hdb
    rcases List.mem_map.mp hdb with ⟨r, hr, rfl⟩
    apply List.mem_map_of_mem
    unfold fetchedRows
    rw [List.mem_filter]
    exact ⟨hr, by simpa using ha⟩

theorem fetchedRows_status {cid n : Nat} {db : UploadDB} {r : PRow}
    (hr : r ∈ fetchedRows cid n db) : r.status = .processing := by
  unfold fetchedRows at hr
  rcases List.mem_filter.mp hr with ⟨hr2, hcont⟩
  unfold markProcessingByIds at hr2
  rcases List.mem_map.mp hr2 with ⟨r0, _, rfl⟩
  by_cases h : r0.id ∈ selectedIds cid n db
  · simp [h]
  · simp [h] at hcont

theorem mem_selectedIds_pending {cid n x : Nat} {db : UploadDB}
    (hnd : (db.map (fun r => r.id)).Nodup)
    (hx : x ∈ selectedIds cid n db) : statusOf db x = some .pending := by
  unfold selectedIds at hx
  rcases List.mem_map.mp hx with ⟨s, hs, rfl⟩
  obtain ⟨hdb, _, hpend⟩ := mem_pendingOf.mp (pendingSelection_subset hs)
  unfold statusOf
  rw [find?_eq_of_nodup hnd hdb]
  simp [hpend]

theorem statusOf_after_emit {cid n x : Nat} {db : UploadDB}
    (hnd : (db.map (fun r => r.id)).Nodup)
    (hx : x ∈ selectedIds cid n db) :
    statusOf (markProcessingByIds (selectedIds cid n db) db) x = some .processing := by
  rw [statusOf_markProcessing]
  have hdb : x ∈ db.map (fun r => r.id) := mem_selectedIds_mem_db hx
  rcases List.mem_map.mp hdb with ⟨r, hr, rfl⟩
  rw [find?_eq_of_nodup hnd hr]
  simp [hx]

theorem statusOf_not_pending_stable {ids : List Nat} {db : UploadDB} {x : Nat}
    (h : statusOf db x ≠ some .pending) :
    statusOf (markProcessingByIds ids db) x ≠ some .pending := by
  rw [statusOf_markProcessing]
  cases hf : db.find? (fun r : PRow => r.id == x) with
  | none => simp
  | some r =>
    unfold statusOf at h
    rw [hf] at h
    simp only [Option.map_some'] at h
    by_cases hm : x ∈ ids <;> simp [hm]
    exact fun he => h (by rw [he])

theorem not_pending_not_in_run (cid n x : Nat) :
    ∀ (fuel : Nat) (db : UploadDB),
      (db.map (fun r => r.id)).Nodup →
      statusOf db x ≠ some .pending →
      x ∉ (runFetcherIds cid n fuel db).flatten := by
  intro fuel
  induction fuel with
  | zero =>
    intro db _ _
    simp [runFetcherIds]
  | succ fuel ih =>
    intro db hnd h
    unfold runFetcherIds
    cases hf : fetcherNext cid n db with
    | none => simp
    | some t =>
      obtain ⟨rows, pids, db2⟩ := t
      obtain ⟨_, hdb2, hrows, _⟩ := fetcherNext_eq_some_inv hf
      intro hmem
      rw [List.flatten_cons] at hmem
      rcases List.mem_append.mp hmem with h1 | h2
      · have hsel : x ∈ selectedIds cid n db := by
          rw [hrows] at h1
          rcases List.mem_map.mp h1 with ⟨r, hr, rfl⟩
          unfold fetchedRows at hr
          rcases List.mem_filter.mp hr with ⟨_, hcont⟩
          simpa using hcont
        exact h (mem_selectedIds_pending hnd hsel)
      · have hnd2 : (db2.map (fun r => r.id)).Nodup := by
          rw [hdb2, map_id_markProcessing]
          exact hnd
        have h2n : statusOf db2 x ≠ some .pending := by
          rw [hdb2]
          exact statusOf_not_pending_stable h
        exact ih db2 hnd2 h2n h2

theorem run_flatten_nodup (cid n : Nat) :
    ∀ (fuel : Nat) (db : UploadDB),
      (db.map (fun r => r.id)).Nodup →
      ((runFetcherIds cid n fuel db).flatten).Nodup := by
  intro fuel
  induction fuel with
  | zero =>
    intro db _
    simp [runFetcherIds]
  | succ fuel ih =>
    intro db hnd
    unfold runFetcherIds
    cases hf : fetcherNext cid n db with
    | none => simp
    | some t =>
      obtain ⟨rows, pids, db2⟩ := t
      obtain ⟨_, hdb2, hrows, _⟩ := fetcherNext_eq_some_inv hf
      rw [List.flatten_cons]
      have hnd2 : (db2.map (fun r => r.id)).Nodup := by
        rw [hdb2, map_id_markProcessing]
        exact hnd
      apply List.Nodup.append
      · rw [hrows]
        exact fetchedRows_map_id_nodup hnd
      · exact ih db2 hnd2
      · intro a ha hb
        have hsel : a ∈ selectedIds cid n db := by
          rw [hrows] at ha
          rcases List.mem_map.mp ha with ⟨r, hr, rfl⟩
          unfold fetchedRows at hr
          rcases List.mem_filter.mp hr with ⟨_, hcont⟩
          simpa using hcont
        have hproc : statusOf db2 a ≠ some .pending := by
          rw [hdb2, statusOf_after_emit hnd hsel]
          simp
        exact not_pending_not_in_run cid n a fuel db2 hnd2 hproc hb

/-- C5: with a positive batch size and distinct primary keys, each
`ProductBatchFetcher.__next__` call selects up to `batch_size` pending rows
of the catalog ordered oldest-modified-first (any unselected pending row is
no older than every selected one), transitions exactly the selected rows to
processing (rows outside the id set are untouched), returns them with their
remote product identifiers, signals exhaustion exactly when the pending
selection is empty, and across repeated calls of one pass no row id is ever
emitted twice. -/
theorem C5_batch_fetcher_contract :
    ∀ (cid n : Nat) (db : UploadDB),
      0 < n →
      (db.map (fun r => r.id)).Nodup →
      ((fetcherNext cid n db = none ↔ pendingOf cid db = []) ∧
       (pendingSelection cid n db).length = min n (pendingOf cid db).length ∧
       List.Sorted byModified (pendingSelection cid n db) ∧
       (∀ r ∈ pendingSelection cid n db,
          r ∈ db ∧ r.catalogId = cid ∧ r.status = .pending) ∧
       (∀ r ∈ pendingOf cid db, r ∉ pendingSelection cid n db →
          ∀ s ∈ pendingSelection cid n db, s.modifiedOn ≤ r.modifiedOn) ∧
       (∀ rows pids db2, fetcherNext cid n db = some (rows, pids, db2) →
          pids = rows.map (fun r => r.fbProductId) ∧
          ((rows.map (fun r => r.id)).Perm (selectedIds cid n db)) ∧
          (∀ r ∈ rows, r.status = .processing) ∧
          (∀ i (h : i < db.length),
            ((selectedIds cid n db).contains db[i].id = true →
               db2[i]? = some { db[i] with status := .processing }) ∧
            ((selectedIds cid n db).contains db[i].id = false →
               db2[i]? = some db[i]))) ∧
       (∀ fuel, ((runFetcherIds cid n fuel db).flatten).Nodup)) := by
  intro cid n db hn hnd
  refine ⟨fetcherNext_eq_none_iff hn, pendingSelection_length cid n db,
    pendingSelection_sorted cid n db, ?_, pendingSelection_oldest_first, ?_, ?_⟩
  · intro r hr
    exact mem_pendingOf.mp (pendingSelection_subset hr)
  · intro rows pids db2 hf
    obtain ⟨_, hdb2, hrows, hpids⟩ := fetcherNext_eq_some_inv hf
    refine ⟨hpids, ?_, ?_, ?_⟩
    · rw [hrows]
      exact fetchedRows_map_id_perm hnd
    · intro r hr
      rw [hrows] at hr
      exact fetchedRows_status hr
    · intro i h
      constructor
      · intro hc
        rw [hdb2, getElem?_markProcessing, List.getElem?_eq_getElem h]
        simp only [Option.map_some']
        rw [hc, if_pos rfl]
      · intro hc
        rw [hdb2, getElem?_markProcessing, List.getElem?_eq_getElem h]
        simp only [Option.map_some']
        rw [hc]
        simp only [Bool.false_eq_true, if_false]
  · intro fuel
    exact run_flatten_nodup cid n fuel db hnd

/-- Witness for C5 at the two-row example of the spec (batch size 1). -/
theorem C5_batch_fetcher_contract_witness :
    fetcherNext 7 1 [⟨1, "p1", 7, .pending, 10⟩, ⟨2, "p2", 7, .pending, 20⟩] = none ↔
      pendingOf 7 [⟨1, "p1", 7, .pending, 10⟩, ⟨2, "p2", 7, .pending, 20⟩] = [] :=
  (C5_batch_fetcher_contract 7 1
    [⟨1, "p1", 7, .pending, 10⟩, ⟨2, "p2", 7, .pending, 20⟩]
    (by decide) (by decide)).1

/-- C4 counterexample: when the exception is raised by the very first fetch,
before `products_ids` is ever bound, the except handler of
`process_and_upload` references the unbound local and itself fails, so the
error path is not well-defined there, refuting that part of the claim. -/
theorem C4_first_fetch_failure_unbound_local :
    process_and_upload 7 30000 [.fetchRaise] [⟨1, "11#1", 7, .pending, 0⟩] none
      = ([⟨1, "11#1", 7, .pending, 0⟩], .unboundLocal) := rfl

/-- C4 amended: an unexpected exception escaping the loop body after a batch
was fetched terminates the loop at once (later events are never consumed),
marks the current batch ids error, and leaves every success row untouched
(no rollback of committed batches); an exception raised by a later fetch
marks the previously bound ids error; but an exception raised by the first
fetch, before any ids are bound, makes the handler itself fail on the
unbound `products_ids` local rather than perform a safe no-op. -/
theorem C4_amended_error_path :
    ∀ (cid n : Nat) (events : List UEvent) (db : UploadDB)
      (bound : Option (List String)) (rows : List PRow) (pids : List String)
      (db2 : UploadDB),
      (fetcherNext cid n db = some (rows, pids, db2) →
        process_and_upload cid n (.bodyRaise :: events) db bound
          = (mark_products_as_error pids db2, .caughtMarked)) ∧
      (∀ i (h : i < db2.length), db2[i].status = .success →
        (mark_products_as_error pids db2)[i]? = some db2[i]) ∧
      (process_and_upload cid n (.fetchRaise :: events) db (some pids)
        = (mark_products_as_error pids db, .caughtMarked)) ∧
      (process_and_upload cid n (.fetchRaise :: events) db none
        = (db, .unboundLocal)) := by
  intro cid n events db bound rows pids db2
  refine ⟨?_, ?_, rfl, rfl⟩
  · intro hf
    simp only [process_and_upload]
    rw [hf]
  · intro i h hs
    unfold mark_products_as_error
    rw [List.getElem?_map, List.getElem?_eq_getElem h]
    simp only [Option.map_some']
    have hb : (db2[i].status == PStatus.processing) = false := by
      rw [hs]
      decide
    rw [hb, Bool.and_false]
    simp only [Bool.false_eq_true, if_false]

/-- Witness for C4 amended at a one-row table whose only batch raises. -/
theorem C4_amended_witness :
    process_and_upload 7 1 [.bodyRaise] [⟨1, "p1", 7, .pending, 5⟩] none
      = (mark_products_as_error ["p1"] [⟨1, "p1", 7, .processing, 5⟩], .caughtMarked) :=
  (C4_amended_error_path 7 1 [] [⟨1, "p1", 7, .pending, 5⟩] none
    [⟨1, "p1", 7, .processing, 5⟩] ["p1"] [⟨1, "p1", 7, .processing, 5⟩]).1 rfl
